import Mathlib

/-!
Verification of `base_travel_time_matrix_computer.py`
(class `BaseTravelTimeMatrixComputer`).

The development shallowly embeds the parts of the source that the checked
properties concern:

* the result-correction methods `add_access_times` and
  `clean_same_same_o_d_pairs`, which operate on pandas data frames — a data
  frame is modelled as a column-name list plus rows of (column, value)
  association lists, with an explicit NaN value so that the behaviour of
  joins on missing ids is captured exactly;
* the `origins_destinations` property setter (filtering by extent, centroid
  substitution, snapping, and construction of the `access_walking_times`
  table) — coordinates are rationals, the extent is a polygonal region given
  as a union of axis-aligned rectangles, and the external collaborators
  (`snap_to_network` and the equidistant-CRS distance) are parameters;
* the `osm_history_file` property setter (the extract cache) — modelled as a
  state machine over an abstract file system, with the two osmium
  invocations given by their exit codes and the file state each leaves at
  its output path; the source calls `subprocess.run` without `check=True`,
  so no path of the setter inspects an exit code or raises;
* the extent-identity component of the extract cache key, which the source
  computes as Python's built-in `hash` of the extent geometry.

CRS reprojections (`to_crs`) are modelled as the identity on coordinates:
the source treats them as assumed-correct library primitives and every
checked property is stated frame-independently.
-/

/-! ## Values of pandas cells

Integer travel times and walking times, plus NaN.  NaN arises from joining a
travel-time record against `access_walking_times` when the record's id is
absent from the table; arithmetic with NaN yields NaN, and comparisons follow
pandas semantics (NaN is unequal to everything, including itself). -/

inductive PVal where
  | num : Int → PVal
  | nan : PVal
  deriving DecidableEq, Repr

/-- Addition of cell values, as performed by the masked
`travel_times.loc[...] += ...` statement: any NaN operand gives NaN. -/
def PVal.add : PVal → PVal → PVal
  | PVal.num a, PVal.num b => PVal.num (a + b)
  | _, _ => PVal.nan

/-- Python's `round` applied to the joined `walking_time` column.  The table
values are integers (`astype(int)` at construction), so rounding is the
identity on numbers; `round` of NaN is NaN. -/
def PVal.pyRound : PVal → PVal
  | PVal.num a => PVal.num a
  | PVal.nan => PVal.nan

/-- The pandas comparison `travel_times.from_id != travel_times.to_id`:
NaN compares unequal to everything. -/
def PVal.pandasNe : PVal → PVal → Bool
  | PVal.num a, PVal.num b => a != b
  | _, _ => true

/-- The pandas comparison `travel_times.from_id == travel_times.to_id`:
NaN compares equal to nothing. -/
def PVal.pandasEq : PVal → PVal → Bool
  | PVal.num a, PVal.num b => a == b
  | _, _ => false

/-! ## Data frames

A row is an association list from column names to values; a data frame is a
list of column names plus its rows.  Place ids are integers. -/

abbrev ColName := String

abbrev Row := List (ColName × PVal)

/-- The column names of a row. -/
def keys (row : Row) : List ColName := row.map Prod.fst

/-- Reading a cell: the first entry with the given column name (columns of a
pandas frame are unique); a missing column reads as NaN. -/
def getCol (row : Row) (c : ColName) : PVal :=
  ((row.find? (fun p => p.1 == c)).map Prod.snd).getD PVal.nan

/-- Writing a cell in place. -/
def setCol (row : Row) (c : ColName) (v : PVal) : Row :=
  row.map (fun p => if p.1 == c then (c, v) else p)

/-- The column projection `travel_times[COLUMNS]`: keeps exactly the
requested columns, in the requested order. -/
def selectCols (cols : List ColName) (row : Row) : Row :=
  cols.map (fun c => (c, getCol row c))

structure DataFrame where
  cols : List ColName
  rows : List Row
  deriving DecidableEq, Repr

/-! ## `add_access_times` and `clean_same_same_o_d_pairs`

The access-time table `self.access_walking_times` is a frame indexed by the
unique place id with a single integer column `walking_time`; it is modelled
as an association list from id to walking time.  The pandas
`set_index(which_end).join(...).reset_index(names=which_end)` on a
unique-index table adds a `walking_time` column holding the table value for
the row's id, or NaN when the id is absent, and preserves row order; the
index shuffling it performs on column order is undone by the subsequent
`travel_times[COLUMNS]` projection. -/

/-- Joined `walking_time` cell for one row: table lookup of the id, NaN when
the id is absent (or is itself NaN). -/
def lookupWalkingTime (tbl : List (Int × Int)) : PVal → PVal
  | PVal.num i =>
    match tbl.lookup i with
    | some w => PVal.num w
    | none => PVal.nan
  | PVal.nan => PVal.nan

/-- The join against `access_walking_times` on the `which_end` column. -/
def joined (tbl : List (Int × Int)) (whichEnd : ColName) (row : Row) : Row :=
  row ++ [("walking_time", lookupWalkingTime tbl (getCol row whichEnd))]

/-- The masked increment
`travel_times.loc[from_id != to_id, "travel_time"] += round(walking_time)`. -/
def maskedAddRow (row : Row) : Row :=
  if PVal.pandasNe (getCol row "from_id") (getCol row "to_id") then
    setCol row "travel_time"
      ((getCol row "travel_time").add ((getCol row "walking_time").pyRound))
  else row

/-- One iteration of the loop body of `add_access_times` for a single row:
join, masked increment, restriction to the original columns. -/
def stepRow (tbl : List (Int × Int)) (COLUMNS : List ColName) (whichEnd : ColName)
    (row : Row) : Row :=
  selectCols COLUMNS (maskedAddRow (joined tbl whichEnd row))

/-- One iteration of the loop of `add_access_times` on the whole frame
(each frame operation involved acts row-wise). -/
def accessStep (tbl : List (Int × Int)) (COLUMNS : List ColName) (whichEnd : ColName)
    (rows : List Row) : List Row :=
  rows.map (stepRow tbl COLUMNS whichEnd)

/-- `add_access_times`: the loop runs for `which_end` in
`("from_id", "to_id")`, in that order. -/
def add_access_times (tbl : List (Int × Int)) (df : DataFrame) : DataFrame :=
  ⟨df.cols, accessStep tbl df.cols "to_id" (accessStep tbl df.cols "from_id" df.rows)⟩

/-- Both loop iterations of `add_access_times`, on a single row. -/
def addAccessRow (tbl : List (Int × Int)) (COLUMNS : List ColName) (row : Row) : Row :=
  stepRow tbl COLUMNS "to_id" (stepRow tbl COLUMNS "from_id" row)

/-- `travel_times.loc[from_id == to_id, "travel_time"] = 0`, on one row. -/
def cleanRow (row : Row) : Row :=
  if PVal.pandasEq (getCol row "from_id") (getCol row "to_id") then
    setCol row "travel_time" (PVal.num 0)
  else row

/-- `clean_same_same_o_d_pairs`. -/
def clean_same_same_o_d_pairs (df : DataFrame) : DataFrame :=
  ⟨df.cols, df.rows.map cleanRow⟩

/-! ## Geometry

Coordinates are rationals in a single working frame.  The extent is a
polygonal region given as a union of closed axis-aligned rectangles, with
exact membership; input geometries are points or polygons (vertex lists).
The shapely `within` test of a geometry against the extent is embedded as
point membership for points and, for polygons, the vertex test — which
agrees with region containment on every concrete geometry used in this
development.  The shapely `centroid` is the exact area centroid (shoelace
formula); the centroid of a point is the point itself. -/

abbrev Pt := ℚ × ℚ

structure Rect where
  x0 : ℚ
  x1 : ℚ
  y0 : ℚ
  y1 : ℚ
  deriving DecidableEq, Repr

abbrev Extent := List Rect

/-- Membership of a point in the extent region. -/
def pointInExtent (extent : Extent) (p : Pt) : Bool :=
  extent.any (fun r =>
    decide (r.x0 ≤ p.1 ∧ p.1 ≤ r.x1 ∧ r.y0 ≤ p.2 ∧ p.2 ≤ r.y1))

inductive Geom where
  | point : Pt → Geom
  | polygon : List Pt → Geom
  deriving DecidableEq, Repr

/-- The `geom_type` of a geometry, as geopandas reports it. -/
def Geom.typeName : Geom → String
  | Geom.point _ => "Point"
  | Geom.polygon _ => "Polygon"

/-- Area centroid of a polygon given by its vertex ring (shoelace formula),
the computation shapely performs; degenerate (zero-area) rings map to the
origin, a case not reached in this development. -/
def polyCentroid (vs : List Pt) : Pt :=
  let es := vs.zip (vs.rotate 1)
  let s := es.foldl (fun a e => a + (e.1.1 * e.2.2 - e.2.1 * e.1.2)) 0
  let sx := es.foldl (fun a e => a + (e.1.1 + e.2.1) * (e.1.1 * e.2.2 - e.2.1 * e.1.2)) 0
  let sy := es.foldl (fun a e => a + (e.1.2 + e.2.2) * (e.1.1 * e.2.2 - e.2.1 * e.1.2)) 0
  (sx / (3 * s), sy / (3 * s))

/-- The shapely centroid: a point is its own centroid. -/
def Geom.centroidPt : Geom → Pt
  | Geom.point p => p
  | Geom.polygon vs => polyCentroid vs

/-- The shapely `geometry.within(extent)` test (see the section comment). -/
def withinB (extent : Extent) : Geom → Bool
  | Geom.point p => pointInExtent extent p
  | Geom.polygon vs => vs.all (pointInExtent extent)

/-- An input place: caller-supplied unique id plus original geometry. -/
structure Place where
  id : Int
  geom : Geom
  deriving DecidableEq, Repr

/-! ## The `origins_destinations` setter -/

/-- `WALKING_SPEED = 3.6 * 1000.0 / 60.0` (km/h converted to metres per
minute). -/
def WALKING_SPEED : ℚ := 3.6 * 1000 / 60

/-- The `walking_time` column entry computed from a snapped distance:
`(snapped_distance / WALKING_SPEED).fillna(0).apply(numpy.ceil).astype(int)`.
An undefined distance (snap failure) is `none` and falls to the
`fillna(0)` branch. -/
def walking_time_of (d : Option ℚ) : ℤ :=
  Int.ceil ((d.map (fun x => x / WALKING_SPEED)).getD 0)

/-- The state the setter assigns: `self.access_walking_times` (id indexed
against its integer walking time) and `self._origins_destinations`
(id and post-normalization geometry columns). -/
structure ODState where
  access_walking_times : List (Int × ℤ)
  origins_destinations : List (Int × Geom)
  deriving DecidableEq, Repr

/-- The `origins_destinations` property setter.

* `value = value.to_crs(WORKING_CRS)` — identity on coordinates here;
* `value = value[value.geometry.within(self.extent)]` — the per-row filter
  on the original geometry;
* centroid substitution when `geom_type.unique().tolist() != ["Point"]`
  (the substitution applies to every row; the centroid of a point is the
  point itself);
* snapping (`snap`) and the equidistant-frame distance (`dist`) are the
  external collaborators `transport_network.snap_to_network` and
  `GeoSeries.distance`; a failed snap gives an undefined distance;
* the `walking_time` column and the resulting `access_walking_times` and
  `_origins_destinations` frames are built from the surviving rows. -/
def origins_destinations_setter (extent : Extent) (snap : Pt → Option Pt)
    (dist : Pt → Pt → ℚ) (value : List Place) : ODState :=
  let value := value.filter (fun pl => withinB extent pl.geom)
  let origins_destinations :=
    if (value.map (fun pl => pl.geom.typeName)).eraseDups = ["Point"] then
      value.map (fun pl => (pl.id, pl.geom))
    else
      value.map (fun pl => (pl.id, Geom.point pl.geom.centroidPt))
  let access_walking_times :=
    origins_destinations.map (fun pr =>
      (pr.1, walking_time_of ((snap pr.2.centroidPt).map (fun q => dist pr.2.centroidPt q))))
  ⟨access_walking_times, origins_destinations⟩

/-! ## The `osm_history_file` setter (extract cache)

The two osmium invocations are `subprocess.run` calls whose exit status the
source never inspects (`check=True` is not passed), so no path of the setter
raises on tool failure; an invocation is described by its exit code and the
file state it leaves at its output path.  `pathlib.Path.exists()` is true
for any present file, including a truncated one.  The snapshot is written
into a fresh `tempfile.TemporaryDirectory`; the final extract is written
directly to its final path (`--overwrite`), with no temporary-then-rename
step. -/

inductive FileState where
  | absent : FileState
  | truncated : FileState
  | complete : FileState
  deriving DecidableEq, Repr

/-- One osmium invocation: its exit code and the file state it leaves at its
output path (a failing invocation may leave a truncated output or none). -/
structure ToolRun where
  exitCode : Nat
  output : FileState
  deriving DecidableEq, Repr

/-- The behaviour of the two osmium invocations of one setter call. -/
structure ExtractEnv where
  timeFilter : ToolRun
  extract : ToolRun
  deriving DecidableEq, Repr

/-- `osm_snapshot_filename` (inside the temporary directory). -/
def snapshotPath (stem datetime : String) : String :=
  stem ++ "_" ++ datetime ++ ".osm.pbf"

/-- `osm_extract_filename` (next to the history file): stem, snapshot
timestamp, and the extent-identity component of the cache key. -/
def extractPath (stem datetime : String) (extentHash : Int) : String :=
  stem ++ "_" ++ datetime ++ "_" ++ toString extentHash ++ ".osm.pbf"

/-- The file system: the state found at each path. -/
def updateFS (fs : String → FileState) (p : String) (st : FileState) :
    String → FileState :=
  fun q => if q = p then st else fs q

/-- The result of one `osm_history_file` setter call: the file system after
the call, the published `self.osm_extract_file` path, the number of osmium
invocations, and whether the call raised a hard failure (it never does: exit
codes are ignored). -/
structure SetterOutcome where
  fs : String → FileState
  osm_extract_file : String
  invocations : Nat
  hardFailure : Bool

/-- The `osm_history_file` property setter.  Control flow of the source:
skip everything when the final extract exists; otherwise run the temporal
filter unless the snapshot exists (it never does — the temporary directory
is fresh — but the check is in the source), then run the spatial extract
writing directly to the final path; finally publish
`self.osm_extract_file = osm_extract_filename` unconditionally. -/
def osm_history_file_setter (stem datetime : String) (extentHash : Int)
    (fs : String → FileState) (env : ExtractEnv) : SetterOutcome :=
  let osm_snapshot_filename := snapshotPath stem datetime
  let osm_extract_filename := extractPath stem datetime extentHash
  if fs osm_extract_filename = FileState.absent then
    if fs osm_snapshot_filename = FileState.absent then
      let fs1 := updateFS fs osm_snapshot_filename env.timeFilter.output
      let fs2 := updateFS fs1 osm_extract_filename env.extract.output
      ⟨fs2, osm_extract_filename, 2, false⟩
    else
      let fs2 := updateFS fs osm_extract_filename env.extract.output
      ⟨fs2, osm_extract_filename, 1, false⟩
  else
    ⟨fs, osm_extract_filename, 0, false⟩

/-! ## The extent-identity component of the cache key

The source computes it as `hash(self.extent)`, Python's built-in hash of the
shapely geometry.  Modelled from the spec: per §4.4/§9 this raw hash is
salted with per-process interpreter state and is not reproducible across
runs; the salt is made explicit as a seed parameter mixed into a content
hash of the geometry's WKB bytes — a schematic stand-in for CPython's
salted SipHash of the WKB buffer.  Within one process (one seed) the value
depends only on the geometry's content. -/

def pyGeometryHash (processSeed : Nat) (wkb : List Nat) : Int :=
  Int.ofNat ((wkb.foldl (fun a b => a * 1000003 + b) processSeed) % (2 ^ 61 - 1))

/-! ## Concrete geometries used in counterexamples -/

/-- A non-convex (L-shaped) extent: the union of a horizontal and a vertical
arm. -/
def lExtent : Extent := [⟨0, 10, 0, 2⟩, ⟨0, 2, 0, 10⟩]

/-- An L-shaped polygon whose region coincides with `lExtent` (so it is
within the extent), listed counter-clockwise. -/
def lPolyVs : List Pt := [(0, 0), (10, 0), (10, 2), (2, 2), (2, 10), (0, 10)]

/-- A convex square extent. -/
def squareExtent : Extent := [⟨0, 10, 0, 10⟩]

/-- A rectangle that crosses the left edge of `squareExtent`: only partially
inside, but with centroid (0, 5) inside. -/
def crossingVs : List Pt := [(-2, 4), (2, 4), (2, 6), (-2, 6)]

/-! ## Concrete fixtures used by witnesses and counterexamples -/

/-- An access-time table holding both ids of `rowW`. -/
def tblW : List (Int × Int) := [(1, 3), (2, 4)]

/-- A travel-time record from id 1 to id 2 with an extra column. -/
def rowW : Row :=
  [("from_id", PVal.num 1), ("to_id", PVal.num 2),
   ("travel_time", PVal.num 10), ("extra", PVal.num 9)]

def dfW : DataFrame := ⟨["from_id", "to_id", "travel_time", "extra"], [rowW]⟩

/-- A same-origin-destination record with a negative raw travel time. -/
def rowSame : Row :=
  [("from_id", PVal.num 1), ("to_id", PVal.num 1), ("travel_time", PVal.num (-5))]

def dfSame : DataFrame := ⟨["from_id", "to_id", "travel_time"], [rowSame]⟩

/-- An access-time table in which id 2 is absent. -/
def tblMiss : List (Int × Int) := [(1, 3)]

/-- A record whose `to_id` (2) is absent from `tblMiss`. -/
def rowMiss : Row :=
  [("from_id", PVal.num 1), ("to_id", PVal.num 2), ("travel_time", PVal.num 10)]

def dfMiss : DataFrame := ⟨["from_id", "to_id", "travel_time"], [rowMiss]⟩

/-- The snapshot timestamp used in the cache fixtures. -/
def dtW : String := "2023-06-15T00:00:00Z"

/-- An empty file system. -/
def fsAbsent : String → FileState := fun _ => FileState.absent

/-- A file system already holding a complete final extract for the fixture
key. -/
def fsComplete : String → FileState :=
  updateFS fsAbsent (extractPath "region" dtW 5) FileState.complete

/-- Both osmium invocations succeed. -/
def envOk : ExtractEnv :=
  ⟨⟨0, FileState.complete⟩, ⟨0, FileState.complete⟩⟩

/-- The temporal filter succeeds; the spatial extract exits non-zero and
leaves a truncated file at its output path. -/
def envFail : ExtractEnv :=
  ⟨⟨0, FileState.complete⟩, ⟨1, FileState.truncated⟩⟩

/-- Outcome of running the extract setter on an empty file system with the
failing spatial extract. -/
def outcomeFail : SetterOutcome :=
  osm_history_file_setter "region" dtW 5 fsAbsent envFail

/-! ## Association-list row lemmas -/

theorem keys_cons (a : ColName) (v : PVal) (row : Row) :
    keys ((a, v) :: row) = a :: keys row := rfl

theorem keys_append (r1 r2 : Row) : keys (r1 ++ r2) = keys r1 ++ keys r2 := by
  simp [keys]

theorem getCol_cons (a : ColName) (v : PVal) (row : Row) (c : ColName) :
    getCol ((a, v) :: row) c = if a = c then v else getCol row c := by
  by_cases h : a = c
  · have hb : ((a, v).1 == c) = true := by simp [h]
    simp [getCol, List.find?_cons_of_pos _ hb, h]
  · have hb : ¬((a, v).1 == c) = true := by simp [h]
    simp [getCol, List.find?_cons_of_neg _ hb, h]

theorem getCol_append_of_mem (row tail : Row) (c : ColName) (h : c ∈ keys row) :
    getCol (row ++ tail) c = getCol row c := by
  induction row with
  | nil => simp [keys] at h
  | cons p row ih =>
    obtain ⟨a, v⟩ := p
    rw [List.cons_append, getCol_cons, getCol_cons]
    by_cases hac : a = c
    · simp [hac]
    · rw [keys_cons] at h
      have hc : c ∈ keys row := by
        rcases List.mem_cons.mp h with h' | h'
        · exact absurd h'.symm hac
        · exact h'
      simp [hac, ih hc]

theorem getCol_append_of_not_mem (row tail : Row) (c : ColName) (h : c ∉ keys row) :
    getCol (row ++ tail) c = getCol tail c := by
  induction row with
  | nil => rfl
  | cons p row ih =>
    obtain ⟨a, v⟩ := p
    rw [keys_cons] at h
    have hac : ¬a = c := fun hx => h (hx ▸ List.mem_cons_self a (keys row))
    have hc : c ∉ keys row := fun hx => h (List.mem_cons_of_mem a hx)
    rw [List.cons_append, getCol_cons, if_neg hac, ih hc]

theorem setCol_cons (a : ColName) (w : PVal) (row : Row) (c : ColName) (v : PVal) :
    setCol ((a, w) :: row) c v
      = (if a == c then (c, v) else (a, w)) :: setCol row c v := rfl

theorem getCol_setCol_self (row : Row) (c : ColName) (v : PVal) (h : c ∈ keys row) :
    getCol (setCol row c v) c = v := by
  induction row with
  | nil => simp [keys] at h
  | cons p row ih =>
    obtain ⟨a, w⟩ := p
    rw [setCol_cons]
    by_cases hac : a = c
    · simp [hac, getCol_cons]
    · rw [keys_cons] at h
      have hc : c ∈ keys row := by
        rcases List.mem_cons.mp h with h' | h'
        · exact absurd h'.symm hac
        · exact h'
      have hb : ¬(a == c) = true := by simp [hac]
      rw [if_neg hb, getCol_cons, if_neg hac, ih hc]

theorem getCol_setCol_of_ne (row : Row) (c : ColName) (v : PVal) (c' : ColName)
    (h : c' ≠ c) : getCol (setCol row c v) c' = getCol row c' := by
  induction row with
  | nil => rfl
  | cons p row ih =>
    obtain ⟨a, w⟩ := p
    rw [setCol_cons]
    by_cases hac : a = c
    · have hb : (a == c) = true := by simp [hac]
      have hcc' : ¬c = c' := fun hx => h hx.symm
      have hac' : ¬a = c' := fun hx => h ((hac.symm.trans hx).symm)
      rw [if_pos hb, getCol_cons, getCol_cons, if_neg hcc', if_neg hac', ih]
    · have hb : ¬(a == c) = true := by simp [hac]
      rw [if_neg hb, getCol_cons, getCol_cons, ih]

theorem keys_setCol (row : Row) (c : ColName) (v : PVal) :
    keys (setCol row c v) = keys row := by
  induction row with
  | nil => rfl
  | cons p row ih =>
    obtain ⟨a, w⟩ := p
    rw [setCol_cons]
    by_cases hac : a = c
    · have hb : (a == c) = true := by simp [hac]
      rw [if_pos hb, keys_cons, keys_cons, ih, hac]
    · have hb : ¬(a == c) = true := by simp [hac]
      rw [if_neg hb, keys_cons, keys_cons, ih]

theorem keys_selectCols (cols : List ColName) (row : Row) :
    keys (selectCols cols row) = cols := by
  induction cols with
  | nil => rfl
  | cons c0 cols ih =>
    show keys ((c0, getCol row c0) :: selectCols cols row) = c0 :: cols
    rw [keys_cons, ih]

theorem getCol_selectCols (cols : List ColName) (row : Row) (c : ColName)
    (h : c ∈ cols) : getCol (selectCols cols row) c = getCol row c := by
  induction cols with
  | nil => simp at h
  | cons c0 cols ih =>
    show getCol ((c0, getCol row c0) :: selectCols cols row) c = getCol row c
    rw [getCol_cons]
    by_cases hc0 : c0 = c
    · rw [if_pos hc0, hc0]
    · rcases List.mem_cons.mp h with h' | h'
      · exact absurd h'.symm hc0
      · rw [if_neg hc0, ih h']

theorem PVal.add_nan (x : PVal) : x.add PVal.nan = PVal.nan := by
  cases x <;> rfl

theorem PVal.nan_add (x : PVal) : PVal.nan.add x = PVal.nan := by
  cases x <;> rfl

/-! ## Behaviour of one `add_access_times` loop iteration on a row -/

theorem stepRow_spec (tbl : List (Int × Int)) (COLUMNS : List ColName) (e : ColName)
    (row : Row) (hkeys : keys row = COLUMNS)
    (htt : "travel_time" ∈ COLUMNS) (hwt : "walking_time" ∉ COLUMNS)
    (hf : "from_id" ∈ COLUMNS) (ht : "to_id" ∈ COLUMNS) :
    keys (stepRow tbl COLUMNS e row) = COLUMNS
    ∧ (∀ c ∈ COLUMNS, c ≠ "travel_time" →
        getCol (stepRow tbl COLUMNS e row) c = getCol row c)
    ∧ getCol (stepRow tbl COLUMNS e row) "travel_time" =
        (if PVal.pandasNe (getCol row "from_id") (getCol row "to_id") then
          (getCol row "travel_time").add ((lookupWalkingTime tbl (getCol row e)).pyRound)
        else getCol row "travel_time") := by
  have hmem : ∀ c ∈ COLUMNS, c ∈ keys row := fun c hc => hkeys ▸ hc
  have hwtrow : "walking_time" ∉ keys row := fun hx => hwt (hkeys ▸ hx)
  have hjoin : ∀ c ∈ COLUMNS, getCol (joined tbl e row) c = getCol row c :=
    fun c hc => getCol_append_of_mem _ _ _ (hmem c hc)
  have hjoinwt : getCol (joined tbl e row) "walking_time"
      = lookupWalkingTime tbl (getCol row e) := by
    rw [joined, getCol_append_of_not_mem _ _ _ hwtrow, getCol_cons]
    simp
  have hjoinkeys : keys (joined tbl e row) = COLUMNS ++ ["walking_time"] := by
    rw [joined, keys_append, hkeys]
    rfl
  have httJ : "travel_time" ∈ keys (joined tbl e row) := by
    rw [hjoinkeys]
    exact List.mem_append_left _ htt
  have hguard : PVal.pandasNe (getCol (joined tbl e row) "from_id")
        (getCol (joined tbl e row) "to_id")
      = PVal.pandasNe (getCol row "from_id") (getCol row "to_id") := by
    rw [hjoin _ hf, hjoin _ ht]
  unfold stepRow maskedAddRow
  rw [hguard]
  by_cases hmask : PVal.pandasNe (getCol row "from_id") (getCol row "to_id") = true
  · rw [if_pos hmask, if_pos hmask]
    refine ⟨keys_selectCols _ _, ?_, ?_⟩
    · intro c hc hcne
      rw [getCol_selectCols _ _ _ hc, getCol_setCol_of_ne _ _ _ _ hcne, hjoin _ hc]
    · rw [getCol_selectCols _ _ _ htt, getCol_setCol_self _ _ _ httJ,
        hjoin _ htt, hjoinwt]
  · rw [if_neg hmask, if_neg hmask]
    refine ⟨keys_selectCols _ _, ?_, ?_⟩
    · intro c hc _
      rw [getCol_selectCols _ _ _ hc, hjoin _ hc]
    · rw [getCol_selectCols _ _ _ htt, hjoin _ htt]

/-! ## Behaviour of the full `add_access_times` body on a row -/

theorem addAccessRow_spec (tbl : List (Int × Int)) (COLUMNS : List ColName)
    (row : Row) (hkeys : keys row = COLUMNS)
    (htt : "travel_time" ∈ COLUMNS) (hwt : "walking_time" ∉ COLUMNS)
    (hf : "from_id" ∈ COLUMNS) (ht : "to_id" ∈ COLUMNS) :
    keys (addAccessRow tbl COLUMNS row) = COLUMNS
    ∧ (∀ c ∈ COLUMNS, c ≠ "travel_time" →
        getCol (addAccessRow tbl COLUMNS row) c = getCol row c)
    ∧ getCol (addAccessRow tbl COLUMNS row) "travel_time" =
        (if PVal.pandasNe (getCol row "from_id") (getCol row "to_id") then
          ((getCol row "travel_time").add
              ((lookupWalkingTime tbl (getCol row "from_id")).pyRound)).add
            ((lookupWalkingTime tbl (getCol row "to_id")).pyRound)
        else getCol row "travel_time") := by
  obtain ⟨k1, o1, t1⟩ := stepRow_spec tbl COLUMNS "from_id" row hkeys htt hwt hf ht
  obtain ⟨k2, o2, t2⟩ := stepRow_spec tbl COLUMNS "to_id"
    (stepRow tbl COLUMNS "from_id" row) k1 htt hwt hf ht
  have hfr : getCol (stepRow tbl COLUMNS "from_id" row) "from_id"
      = getCol row "from_id" := o1 _ hf (by decide)
  have hto : getCol (stepRow tbl COLUMNS "from_id" row) "to_id"
      = getCol row "to_id" := o1 _ ht (by decide)
  refine ⟨k2, ?_, ?_⟩
  · intro c hc hcne
    show getCol (stepRow tbl COLUMNS "to_id" (stepRow tbl COLUMNS "from_id" row)) c
        = getCol row c
    rw [o2 c hc hcne, o1 c hc hcne]
  · show getCol (stepRow tbl COLUMNS "to_id" (stepRow tbl COLUMNS "from_id" row))
        "travel_time" = _
    rw [t2, hfr, hto, t1]
    by_cases hg : PVal.pandasNe (getCol row "from_id") (getCol row "to_id") = true
    · rw [if_pos hg, if_pos hg, if_pos hg]
    · rw [if_neg hg, if_neg hg, if_neg hg]

/-! ## Frame-level decompositions -/

theorem add_access_times_rows (tbl : List (Int × Int)) (df : DataFrame) :
    (add_access_times tbl df).rows = df.rows.map (addAccessRow tbl df.cols) := by
  show accessStep tbl df.cols "to_id" (accessStep tbl df.cols "from_id" df.rows)
      = df.rows.map (addAccessRow tbl df.cols)
  rw [accessStep, accessStep, List.map_map]
  rfl

theorem clean_same_same_rows (df : DataFrame) :
    (clean_same_same_o_d_pairs df).rows = df.rows.map cleanRow := rfl

/-! ## Walking-time helpers -/

theorem WALKING_SPEED_eq : WALKING_SPEED = 60 := by
  norm_num [WALKING_SPEED]

theorem walking_time_of_some (d : ℚ) :
    walking_time_of (some d) = Int.ceil (d / WALKING_SPEED) := rfl

theorem walking_time_of_none : walking_time_of none = 0 := by
  simp [walking_time_of]

theorem walking_time_of_nonneg (d : ℚ) (hd : 0 ≤ d) :
    0 ≤ walking_time_of (some d) := by
  rw [walking_time_of_some]
  refine Int.ceil_nonneg (div_nonneg hd ?_)
  rw [WALKING_SPEED_eq]
  norm_num

/-- `access_walking_times` is the id column of the surviving frame paired
with the `walking_time` column. -/
theorem setter_access_eq (extent : Extent) (snap : Pt → Option Pt)
    (dist : Pt → Pt → ℚ) (places : List Place) :
    (origins_destinations_setter extent snap dist places).access_walking_times
      = (origins_destinations_setter extent snap dist places).origins_destinations.map
          (fun pr => (pr.1,
            walking_time_of ((snap pr.2.centroidPt).map (fun q => dist pr.2.centroidPt q)))) := rfl

/-- The surviving frame of the `origins_destinations` setter: the rows that
pass the `within` filter, with geometries substituted by centroids unless
every surviving geometry is already a point. -/
theorem setter_od_eq (extent : Extent) (snap : Pt → Option Pt)
    (dist : Pt → Pt → ℚ) (places : List Place) :
    (origins_destinations_setter extent snap dist places).origins_destinations
      = if ((places.filter (fun pl => withinB extent pl.geom)).map
            (fun pl => pl.geom.typeName)).eraseDups = ["Point"] then
          (places.filter (fun pl => withinB extent pl.geom)).map
            (fun pl => (pl.id, pl.geom))
        else
          (places.filter (fun pl => withinB extent pl.geom)).map
            (fun pl => (pl.id, Geom.point pl.geom.centroidPt)) := rfl

/-! ## Claims -/

/-- Claim C2: for every travel-time record whose `from_id` differs from its
`to_id` and whose ids are both present in the access-time table, the
corrected `travel_time` equals the raw `travel_time` plus the rounded
penalties of the two ids; `add_access_times` applies exactly this row-wise
to the frame. -/
theorem c2_access_time_addition (tbl : List (Int × Int)) (df : DataFrame)
    (row : Row) (hkeys : keys row = df.cols)
    (htt : "travel_time" ∈ df.cols) (hwtc : "walking_time" ∉ df.cols)
    (hf : "from_id" ∈ df.cols) (ht : "to_id" ∈ df.cols)
    (f t v wf wt : Int)
    (hfrom : getCol row "from_id" = PVal.num f)
    (hto : getCol row "to_id" = PVal.num t) (hne : f ≠ t)
    (hraw : getCol row "travel_time" = PVal.num v)
    (hwf : tbl.lookup f = some wf) (hwt2 : tbl.lookup t = some wt) :
    (add_access_times tbl df).rows = df.rows.map (addAccessRow tbl df.cols)
    ∧ getCol (addAccessRow tbl df.cols row) "travel_time" = PVal.num (v + wf + wt) := by
  refine ⟨add_access_times_rows tbl df, ?_⟩
  obtain ⟨_, _, t3⟩ := addAccessRow_spec tbl df.cols row hkeys htt hwtc hf ht
  rw [t3, hfrom, hto, hraw]
  have hguard : PVal.pandasNe (PVal.num f) (PVal.num t) = true := by
    simp [PVal.pandasNe, hne]
  rw [if_pos hguard]
  simp [lookupWalkingTime, hwf, hwt2, PVal.pyRound, PVal.add]

/-- Witness for C2: raw time 10 from id 1 (penalty 3) to id 2 (penalty 4)
corrects to 17. -/
theorem c2_access_time_addition_witness :
    ((1 : Int) ≠ 2 ∧ tblW.lookup (1 : Int) = some 3 ∧ tblW.lookup (2 : Int) = some 4
      ∧ getCol rowW "travel_time" = PVal.num 10)
    ∧ ((add_access_times tblW dfW).rows = dfW.rows.map (addAccessRow tblW dfW.cols)
      ∧ getCol (addAccessRow tblW dfW.cols rowW) "travel_time" = PVal.num 17) := by
  refine ⟨by decide, ?_⟩
  have h := c2_access_time_addition tblW dfW rowW (by decide) (by decide) (by decide)
    (by decide) (by decide) 1 2 10 3 4 (by decide) (by decide) (by decide) (by decide)
    (by decide) (by decide)
  exact ⟨h.1, h.2⟩

/-- Claim C3: a record with `from_id == to_id` ends with `travel_time` 0
after `add_access_times` followed by `clean_same_same_o_d_pairs`, whatever
the raw value was (negative, large, or even NaN). -/
theorem c3_same_pair_zeroed (tbl : List (Int × Int)) (df : DataFrame) (row : Row)
    (hkeys : keys row = df.cols)
    (htt : "travel_time" ∈ df.cols) (hwtc : "walking_time" ∉ df.cols)
    (hf : "from_id" ∈ df.cols) (ht : "to_id" ∈ df.cols)
    (i : Int) (hfrom : getCol row "from_id" = PVal.num i)
    (hto : getCol row "to_id" = PVal.num i) :
    (clean_same_same_o_d_pairs (add_access_times tbl df)).rows
      = df.rows.map (fun r => cleanRow (addAccessRow tbl df.cols r))
    ∧ getCol (cleanRow (addAccessRow tbl df.cols row)) "travel_time" = PVal.num 0 := by
  constructor
  · rw [clean_same_same_rows, add_access_times_rows, List.map_map]
    rfl
  · obtain ⟨k3, o3, _⟩ := addAccessRow_spec tbl df.cols row hkeys htt hwtc hf ht
    have hfr : getCol (addAccessRow tbl df.cols row) "from_id" = PVal.num i := by
      rw [o3 _ hf (by decide), hfrom]
    have hto' : getCol (addAccessRow tbl df.cols row) "to_id" = PVal.num i := by
      rw [o3 _ ht (by decide), hto]
    have hguard : PVal.pandasEq (getCol (addAccessRow tbl df.cols row) "from_id")
        (getCol (addAccessRow tbl df.cols row) "to_id") = true := by
      rw [hfr, hto']
      simp [PVal.pandasEq]
    have httK : "travel_time" ∈ keys (addAccessRow tbl df.cols row) := by
      rw [k3]
      exact htt
    unfold cleanRow
    rw [if_pos hguard, getCol_setCol_self _ _ _ httK]

/-- Witness for C3: a same-pair record with raw travel time −5 corrects
to 0. -/
theorem c3_same_pair_zeroed_witness :
    (getCol rowSame "from_id" = PVal.num 1 ∧ getCol rowSame "to_id" = PVal.num 1
      ∧ getCol rowSame "travel_time" = PVal.num (-5))
    ∧ ((clean_same_same_o_d_pairs (add_access_times tblW dfSame)).rows
        = dfSame.rows.map (fun r => cleanRow (addAccessRow tblW dfSame.cols r))
      ∧ getCol (cleanRow (addAccessRow tblW dfSame.cols rowSame)) "travel_time"
          = PVal.num 0) :=
  ⟨by decide, c3_same_pair_zeroed tblW dfSame rowSame (by decide) (by decide) (by decide)
    (by decide) (by decide) 1 (by decide) (by decide)⟩

/-- Counterexample to claim C4 as stated: joining a record whose `to_id` (2)
is absent from the access-time table yields NaN, not the raw value plus the
present penalty (10 + 3): the batch completes, but the affected record's
travel time is not a well-defined number. -/
theorem c4_missing_id_counterexample :
    (add_access_times tblMiss dfMiss).rows
      = [[("from_id", PVal.num 1), ("to_id", PVal.num 2), ("travel_time", PVal.nan)]]
    ∧ getCol ((add_access_times tblMiss dfMiss).rows.headD []) "travel_time" = PVal.nan
    ∧ PVal.nan ≠ PVal.num (10 + 3) := by
  refine ⟨by decide, by decide, by decide⟩

/-- Claim C4, amended: a record with `from_id ≠ to_id` referencing an id
absent from the access-time table gets `travel_time` NaN (undefined) rather
than the raw value plus the present penalties; the batch is still processed
without failing — every input row yields exactly one output row and rows
with both ids present are unaffected. -/
theorem c4_missing_id_nan (tbl : List (Int × Int)) (df : DataFrame) (row : Row)
    (hkeys : keys row = df.cols)
    (htt : "travel_time" ∈ df.cols) (hwtc : "walking_time" ∉ df.cols)
    (hf : "from_id" ∈ df.cols) (ht : "to_id" ∈ df.cols)
    (f t : Int) (hfrom : getCol row "from_id" = PVal.num f)
    (hto : getCol row "to_id" = PVal.num t) (hne : f ≠ t)
    (hmiss : tbl.lookup f = none ∨ tbl.lookup t = none) :
    (add_access_times tbl df).rows = df.rows.map (addAccessRow tbl df.cols)
    ∧ getCol (addAccessRow tbl df.cols row) "travel_time" = PVal.nan := by
  refine ⟨add_access_times_rows tbl df, ?_⟩
  obtain ⟨_, _, t3⟩ := addAccessRow_spec tbl df.cols row hkeys htt hwtc hf ht
  rw [t3, hfrom, hto]
  have hguard : PVal.pandasNe (PVal.num f) (PVal.num t) = true := by
    simp [PVal.pandasNe, hne]
  rw [if_pos hguard]
  rcases hmiss with hm | hm
  · have h1 : lookupWalkingTime tbl (PVal.num f) = PVal.nan := by
      simp [lookupWalkingTime, hm]
    rw [h1]
    show ((getCol row "travel_time").add PVal.nan.pyRound).add _ = PVal.nan
    rw [show PVal.nan.pyRound = PVal.nan from rfl, PVal.add_nan, PVal.nan_add]
  · have h2 : lookupWalkingTime tbl (PVal.num t) = PVal.nan := by
      simp [lookupWalkingTime, hm]
    rw [h2]
    show (_ : PVal).add PVal.nan.pyRound = PVal.nan
    rw [show PVal.nan.pyRound = PVal.nan from rfl, PVal.add_nan]

/-- Witness for the amended C4 at the concrete frame of the counterexample. -/
theorem c4_missing_id_nan_witness :
    ((1 : Int) ≠ 2 ∧ tblMiss.lookup (2 : Int) = none)
    ∧ ((add_access_times tblMiss dfMiss).rows
        = dfMiss.rows.map (addAccessRow tblMiss dfMiss.cols)
      ∧ getCol (addAccessRow tblMiss dfMiss.cols rowMiss) "travel_time" = PVal.nan) :=
  ⟨⟨by decide, by decide⟩,
    c4_missing_id_nan tblMiss dfMiss rowMiss (by decide) (by decide) (by decide)
      (by decide) (by decide) 1 2 (by decide) (by decide) (by decide)
      (Or.inr (by decide))⟩

/-- Claim C9: `add_access_times` preserves the column list exactly (the
joined `walking_time` column is not in the output), preserves every column
other than `travel_time`, and maps the rows one-to-one in their original
order. -/
theorem c9_frame_preserved (tbl : List (Int × Int)) (df : DataFrame)
    (hwf : ∀ row ∈ df.rows, keys row = df.cols)
    (htt : "travel_time" ∈ df.cols) (hwtc : "walking_time" ∉ df.cols)
    (hf : "from_id" ∈ df.cols) (ht : "to_id" ∈ df.cols) :
    (add_access_times tbl df).cols = df.cols
    ∧ List.Forall₂ (fun rin rout =>
        keys rout = df.cols ∧ "walking_time" ∉ keys rout
        ∧ ∀ c ∈ df.cols, c ≠ "travel_time" → getCol rout c = getCol rin c)
      df.rows (add_access_times tbl df).rows := by
  refine ⟨rfl, ?_⟩
  rw [add_access_times_rows, List.forall₂_map_right_iff, List.forall₂_same]
  intro row hrow
  obtain ⟨k3, o3, _⟩ := addAccessRow_spec tbl df.cols row (hwf row hrow) htt hwtc hf ht
  exact ⟨k3, fun hx => hwtc (by rwa [k3] at hx), o3⟩

/-- Witness for C9 at a concrete one-row frame with an extra column. -/
theorem c9_frame_preserved_witness :
    ((∀ row ∈ dfW.rows, keys row = dfW.cols) ∧ "walking_time" ∉ dfW.cols)
    ∧ ((add_access_times tblW dfW).cols = dfW.cols
      ∧ List.Forall₂ (fun rin rout =>
          keys rout = dfW.cols ∧ "walking_time" ∉ keys rout
          ∧ ∀ c ∈ dfW.cols, c ≠ "travel_time" → getCol rout c = getCol rin c)
        dfW.rows (add_access_times tblW dfW).rows) :=
  ⟨⟨by decide, by decide⟩,
    c9_frame_preserved tblW dfW (by decide) (by decide) (by decide) (by decide)
      (by decide)⟩

/-- Claim C7: the access-time table entry for a place with defined snap
distance d is `ceil(d / WALKING_SPEED)` with `WALKING_SPEED` the constant
3.6 km/h expressed as metres per minute (= 60); an undefined snap distance
maps to 0; and every table value built by the setter is a non-negative
integer (given that distances are non-negative). -/
theorem c7_access_time_table (d : ℚ) (hd : 0 ≤ d) :
    WALKING_SPEED = 60
    ∧ walking_time_of (some d) = Int.ceil (d / WALKING_SPEED)
    ∧ 0 ≤ walking_time_of (some d)
    ∧ walking_time_of none = 0
    ∧ (∀ (extent : Extent) (snap : Pt → Option Pt) (dist : Pt → Pt → ℚ)
        (places : List Place), (∀ p q : Pt, 0 ≤ dist p q) →
        ∀ e ∈ (origins_destinations_setter extent snap dist places).access_walking_times,
          0 ≤ e.2)
    ∧ (∀ (extent : Extent) (dist : Pt → Pt → ℚ) (places : List Place),
        ∀ e ∈ (origins_destinations_setter extent (fun _ => none) dist
            places).access_walking_times,
          e.2 = 0) := by
  refine ⟨WALKING_SPEED_eq, walking_time_of_some d, walking_time_of_nonneg d hd,
    walking_time_of_none, ?_, ?_⟩
  · intro extent snap dist places hdist e he
    rw [setter_access_eq] at he
    obtain ⟨pr, _, rfl⟩ := List.mem_map.mp he
    cases hsnap : snap pr.2.centroidPt with
    | none => simp [hsnap, walking_time_of_none]
    | some q =>
      simp only [hsnap, Option.map_some']
      exact walking_time_of_nonneg _ (hdist _ _)
  · intro extent dist places e he
    rw [setter_access_eq] at he
    obtain ⟨pr, _, rfl⟩ := List.mem_map.mp he
    simp [walking_time_of_none]

/-- Witness for C7 at d = 100 metres (penalty ⌈100∕60⌉ = 2). -/
theorem c7_access_time_table_witness :
    (0 ≤ (100 : ℚ))
    ∧ (WALKING_SPEED = 60
      ∧ walking_time_of (some 100) = Int.ceil ((100 : ℚ) / WALKING_SPEED)
      ∧ 0 ≤ walking_time_of (some 100)
      ∧ walking_time_of none = 0
      ∧ (∀ (extent : Extent) (snap : Pt → Option Pt) (dist : Pt → Pt → ℚ)
          (places : List Place), (∀ p q : Pt, 0 ≤ dist p q) →
          ∀ e ∈ (origins_destinations_setter extent snap dist places).access_walking_times,
            0 ≤ e.2)
      ∧ (∀ (extent : Extent) (dist : Pt → Pt → ℚ) (places : List Place),
          ∀ e ∈ (origins_destinations_setter extent (fun _ => none) dist
              places).access_walking_times,
            e.2 = 0)) :=
  ⟨by norm_num, c7_access_time_table 100 (by norm_num)⟩

/-- Counterexample to claim C8 as stated: the L-shaped polygon `lPolyVs` is
within the L-shaped extent `lExtent`, so the place survives the filter, yet
its representative point — the centroid (29∕9, 29∕9) substituted for the
non-point geometry — lies outside the extent. -/
theorem c8_centroid_outside_extent :
    withinB lExtent (Geom.polygon lPolyVs) = true
    ∧ (origins_destinations_setter lExtent (fun _ => none) (fun _ _ => 0)
        [⟨1, Geom.polygon lPolyVs⟩]).origins_destinations
      = [(1, Geom.point ((29 : ℚ)/9, (29 : ℚ)/9))]
    ∧ pointInExtent lExtent ((29 : ℚ)/9, (29 : ℚ)/9) = false := by
  have hcent : polyCentroid lPolyVs = ((29 : ℚ)/9, (29 : ℚ)/9) := by
    norm_num [polyCentroid, lPolyVs, List.rotate]
  refine ⟨by decide, ?_, ?_⟩
  · rw [setter_od_eq, if_neg (by decide)]
    have hfilter : List.filter (fun pl : Place => withinB lExtent pl.geom)
        [⟨1, Geom.polygon lPolyVs⟩] = [⟨1, Geom.polygon lPolyVs⟩] := by decide
    rw [hfilter]
    simp [Geom.centroidPt, hcent]
  · simp only [pointInExtent, lExtent, List.any_cons, List.any_nil, Bool.or_false,
      Bool.or_eq_false_iff, decide_eq_false_iff_not]
    norm_num

/-- Claim C8, amended: after normalization a Place is retained only if its
original geometry lies within the Extent, and dropped Places are observable
via the size of the surviving set; the representative point of a retained
point-geometry Place (the point itself) lies within the Extent, but the
centroid substituted for a retained non-point geometry need not (see the
counterexample for a non-convex extent). -/
theorem c8_normalized_within_amended (extent : Extent) (snap : Pt → Option Pt)
    (dist : Pt → Pt → ℚ) (places : List Place) :
    (origins_destinations_setter extent snap dist places).origins_destinations.length
      = (places.filter (fun pl => withinB extent pl.geom)).length
    ∧ ∀ pr ∈ (origins_destinations_setter extent snap dist places).origins_destinations,
        ∃ pl, pl ∈ places ∧ withinB extent pl.geom = true ∧ pr.1 = pl.id
          ∧ ∀ p : Pt, pl.geom = Geom.point p →
              pr.2 = Geom.point p ∧ pointInExtent extent p = true := by
  constructor
  · rw [setter_od_eq]
    split <;> rw [List.length_map]
  · intro pr hpr
    rw [setter_od_eq] at hpr
    split at hpr
    · obtain ⟨pl, hplmem, rfl⟩ := List.mem_map.mp hpr
      obtain ⟨hmem, hwit⟩ := List.mem_filter.mp hplmem
      refine ⟨pl, hmem, hwit, rfl, ?_⟩
      intro p hp
      refine ⟨hp, ?_⟩
      rw [hp] at hwit
      exact hwit
    · obtain ⟨pl, hplmem, rfl⟩ := List.mem_map.mp hpr
      obtain ⟨hmem, hwit⟩ := List.mem_filter.mp hplmem
      refine ⟨pl, hmem, hwit, rfl, ?_⟩
      intro p hp
      constructor
      · simp [hp, Geom.centroidPt]
      · rw [hp] at hwit
        exact hwit

/-- Claim C10: the setter retains exactly the places whose original
(reprojected) geometry passes the per-row `within` test — the filter runs
before centroid substitution — and consequently the concrete rectangle
`crossingVs`, which only partially overlaps `squareExtent` but whose
centroid (0, 5) lies inside it, is dropped. -/
theorem c10_filter_before_centroid (extent : Extent) (snap : Pt → Option Pt)
    (dist : Pt → Pt → ℚ) (places : List Place) :
    (origins_destinations_setter extent snap dist places).origins_destinations.map Prod.fst
      = (places.filter (fun pl => withinB extent pl.geom)).map Place.id
    ∧ pointInExtent squareExtent (Geom.polygon crossingVs).centroidPt = true
    ∧ withinB squareExtent (Geom.polygon crossingVs) = false
    ∧ (origins_destinations_setter squareExtent (fun _ => none) (fun _ _ => 0)
        [⟨7, Geom.polygon crossingVs⟩]).origins_destinations = [] := by
  have hc2 : (Geom.polygon crossingVs).centroidPt = ((0 : ℚ), 5) := by
    norm_num [Geom.centroidPt, polyCentroid, crossingVs, List.rotate]
  refine ⟨?_, ?_, by decide, by decide⟩
  · rw [setter_od_eq]
    split <;> rw [List.map_map] <;> rfl
  · rw [hc2]
    decide

/-- Claim C1, evaluated at the failing input (code bug): when the spatial
extract invocation exits non-zero leaving a truncated file at the final
path, the setter raises no hard failure, publishes the path anyway, leaves
the truncated artifact at the final extract path, and a subsequent run's
existence check mistakes it for success (zero invocations). -/
theorem c1_tool_failure_not_propagated :
    outcomeFail.hardFailure = false
    ∧ outcomeFail.invocations = 2
    ∧ outcomeFail.osm_extract_file = extractPath "region" dtW 5
    ∧ outcomeFail.fs (extractPath "region" dtW 5) = FileState.truncated
    ∧ (osm_history_file_setter "region" dtW 5 outcomeFail.fs envOk).invocations = 0 := by
  refine ⟨by decide, by decide, by decide, by decide, by decide⟩

/-- Claim C5, evaluated at the failing input (code bug): the extent-identity
component of the cache key is Python's salted built-in hash of the geometry;
the same geometry content hashed under two different per-process seeds gives
different values and hence different extract cache keys. -/
theorem c5_extent_hash_process_dependent :
    pyGeometryHash 0 [1, 2, 3, 4] ≠ pyGeometryHash 1 [1, 2, 3, 4]
    ∧ extractPath "region" dtW (pyGeometryHash 0 [1, 2, 3, 4])
        ≠ extractPath "region" dtW (pyGeometryHash 1 [1, 2, 3, 4]) :=
  ⟨by decide, by decide⟩

/-- Claim C6: when the final extract artifact for the (archive stem, date,
extent-hash) key already exists, the setter performs zero osmium
invocations, leaves the file system untouched, and publishes the same
artifact path as any earlier run with the same key. -/
theorem c6_extract_cache_idempotent (stem datetime : String) (extentHash : Int)
    (fs1 fs2 : String → FileState) (env1 env2 : ExtractEnv)
    (hex : fs2 (extractPath stem datetime extentHash) ≠ FileState.absent) :
    (osm_history_file_setter stem datetime extentHash fs2 env2).invocations = 0
    ∧ (osm_history_file_setter stem datetime extentHash fs2 env2).fs = fs2
    ∧ (osm_history_file_setter stem datetime extentHash fs2 env2).osm_extract_file
        = (osm_history_file_setter stem datetime extentHash fs1 env1).osm_extract_file := by
  have hpath : ∀ (fs : String → FileState) (env : ExtractEnv),
      (osm_history_file_setter stem datetime extentHash fs env).osm_extract_file
        = extractPath stem datetime extentHash := by
    intro fs env
    simp only [osm_history_file_setter]
    split
    · split <;> rfl
    · rfl
  have hskip : osm_history_file_setter stem datetime extentHash fs2 env2
      = ⟨fs2, extractPath stem datetime extentHash, 0, false⟩ := by
    simp only [osm_history_file_setter]
    rw [if_neg hex]
  refine ⟨by rw [hskip], by rw [hskip], ?_⟩
  rw [hskip, hpath fs1 env1]

/-- Witness for C6: a file system already holding the complete extract for
the fixture key skips both invocations and returns the path a fresh first
run (here: one whose extract step failed or succeeded) would return. -/
theorem c6_extract_cache_idempotent_witness :
    fsComplete (extractPath "region" dtW 5) ≠ FileState.absent
    ∧ ((osm_history_file_setter "region" dtW 5 fsComplete envOk).invocations = 0
      ∧ (osm_history_file_setter "region" dtW 5 fsComplete envOk).fs = fsComplete
      ∧ (osm_history_file_setter "region" dtW 5 fsComplete envOk).osm_extract_file
          = (osm_history_file_setter "region" dtW 5 fsAbsent envOk).osm_extract_file) :=
  ⟨by decide,
    c6_extract_cache_idempotent "region" dtW 5 fsAbsent fsComplete envOk envOk (by decide)⟩
